import Mathlib

/-!
Verification development for the Bee Swarm stats backend.

The repository contains several variants of one Express server.  The
definitions below are a shallow embedding of the in-memory ("memory mode")
sample store of the most featureful variant of `src/Index.js`
(lines 526-1394), together with the period resolver `toSeconds`
(identical in all variants), the two read-authentication guards
(`src/Index.js` lines 729-742 and lines 211-226), the leaderboard endpoint
of the middle variant (lines 298-348) and the in-memory controls mailbox
(lines 1363-1382).

Modelling conventions:
* JavaScript numbers are modelled as `JsNum`: either a finite rational
  (`JsNum.num`) or a non-finite value (`JsNum.nonfinite`, standing for
  `NaN`/`Infinity`); a request field that is absent or not a number at all
  is `Option.none`.
* Timestamps are integers (seconds since epoch), sample values are `ℚ`.
* Sequential mutation of a user bucket inside `writeMemory` is embedded as
  a pure function computing the net effect on every field; the pruning
  filter that the source runs at the end of the call is applied to the
  appended lists.
* The MySQL backend is external: the ingest handler is parametrised by
  whether the durable attempt is enabled (`useDb`) and whether it raises
  (`dbOk = false`), mirroring the `try`/`catch` in lines 1278-1340.
-/

/-- A JavaScript number: a finite rational or a non-finite value
(`NaN` / `±Infinity`).  `typeof x === "number"` corresponds to the field
being `some _`; `isFinite(x)` additionally requires `some (.num _)`. -/
inductive JsNum where
  | num (q : ℚ)
  | nonfinite
  deriving DecidableEq, Repr

/-- A plain time/value sample `{t, v}`. -/
structure Pt where
  t : Int
  v : ℚ
  deriving DecidableEq, Repr

/-- A stored backpack entry `{t, v, cap, pct}` as pushed by `writeMemory`
(`src/Index.js` lines 1229-1244).  `cap` is `null` (`none`) when no
capacity was in effect; `pct` is always set by `writeMemory` but the
reader `shapeBackpackEntries` (lines 827-837) tolerates its absence. -/
structure BpEntry where
  t : Int
  v : ℚ
  cap : Option ℚ
  pct : Option ℚ
  deriving DecidableEq, Repr

/-- A backpack point as returned by a stats read: `{t, v, pct}`. -/
structure BpOut where
  t : Int
  v : ℚ
  pct : ℚ
  deriving DecidableEq, Repr

/-- The five nectar types (`NECTAR_TYPES`, `src/Index.js` line 560). -/
inductive NectarType where
  | comforting
  | motivating
  | satisfying
  | refreshing
  | invigorating
  deriving DecidableEq, Repr

/-- The `NECTAR_TYPES` array, in source order. -/
def NECTAR_TYPES : List NectarType :=
  [.comforting, .motivating, .satisfying, .refreshing, .invigorating]

/- ------------------------------------------------------------------ -/

/- Time-Window Resolver: `toSeconds` (`src/Index.js` lines 714-727,
   identical at lines 32-45, 195-208, and in both unnamed parts). -/

/-- Value of a digit string, as matched by the `(\d+)` group. -/
def digitsToNat (ds : List Char) : Nat :=
  ds.foldl (fun a c => a * 10 + (c.toNat - 48)) 0

/-- Whether a character is one of the unit letters `[smhd]`. -/
def isUnitChar (c : Char) : Bool :=
  c = 's' || c = 'm' || c = 'h' || c = 'd'

/-- The regular expression `/^(\d+)([smhd])$/`: the whole string is a
non-empty digit run followed by a single unit letter.  Returns the numeric
value of the digit group and the unit character. -/
def parsePeriod (s : String) : Option (Nat × Char) :=
  let cs := s.data
  match cs.getLast? with
  | none => none
  | some u =>
    let ds := cs.dropLast
    if !ds.isEmpty && ds.all Char.isDigit && isUnitChar u then
      some (digitsToNat ds, u)
    else
      none

/-- Seconds per unit letter, following the `switch` in `toSeconds`. -/
def unitSeconds (u : Char) : Nat :=
  if u = 's' then 1
  else if u = 'm' then 60
  else if u = 'h' then 3600
  else 86400

/-- The Time-Window Resolver `toSeconds` (`src/Index.js` lines 714-727).
`none` models an absent `period` argument; an empty string is falsy in
JavaScript and also takes the default branch. -/
def toSeconds (period : Option String) : Nat :=
  match period with
  | none => 86400
  | some s =>
    if s = "" then 86400
    else
      match parsePeriod s with
      | none => 86400
      | some (n, u) =>
        if u = 's' then min n (86400 * 30)
        else if u = 'm' then min (n * 60) (86400 * 30)
        else if u = 'h' then min (n * 3600) (86400 * 30)
        else if u = 'd' then min (n * 86400) (86400 * 30)
        else 86400

/- ------------------------------------------------------------------ -/

/- Read-path authentication guards. -/

/-- Result of an authentication middleware: a 400, a 401, or `next()` with
the resolved user key. -/
inductive AuthResult where
  | badRequest (msg : String)
  | unauthorized (msg : String)
  | allowed (userKey : String)
  deriving DecidableEq, Repr

/-- JavaScript truthiness of an optional header string: absent (`undefined`)
and the empty string are falsy. -/
def jsTruthy : Option String → Bool
  | none => false
  | some s => !(s == "")

/-- `requireReadKey` of the featureful variant (`src/Index.js` lines
729-742): `x-user-key` is required, and `x-client-key` is only enforced
once `CLIENT_KEY` has been changed away from empty/placeholder. -/
def requireReadKey (clientKeyCfg : String) (userKeyHdr clientKeyHdr : Option String) :
    AuthResult :=
  if !jsTruthy userKeyHdr then .badRequest ("x-user-key required")
  else if clientKeyCfg = "" || clientKeyCfg = "replace-this-client-key" then
    .allowed (userKeyHdr.getD (""))
  else if clientKeyHdr ≠ some clientKeyCfg then .unauthorized ("unauthorized")
  else .allowed (userKeyHdr.getD (""))

/-- `requireReadKey` of the middle variant (`src/Index.js` lines 211-226):
the user key may also arrive as the `user_key` query parameter, and the
`x-client-key` comparison is unconditional. -/
def requireReadKeyV2 (clientKeyCfg : String)
    (userKeyHdr userKeyQuery clientKeyHdr : Option String) : AuthResult :=
  let userKey := if jsTruthy userKeyHdr then userKeyHdr else userKeyQuery
  if !jsTruthy userKey then .badRequest ("x-user-key required")
  else if clientKeyHdr ≠ some clientKeyCfg then
    .unauthorized ("unauthorized: invalid x-client-key")
  else .allowed (userKey.getD (""))

/- ------------------------------------------------------------------ -/

/- Ingest request body and the in-memory user bucket. -/

/-- The fields of a `POST /api/ingest` body that the featureful variant
reads (`src/Index.js` lines 1186-1198).  `atTime` models the `at` field
(a reserved word in Lean); `none` stands for an absent or non-number
field.  The source also accepts `playerId` as a numeric string, coerced
with `Number(...)`; here the caller passes the already-coerced number. -/
structure IngestBody where
  honey : Option JsNum
  pollen : Option JsNum
  backpack : Option JsNum
  backpackCapacity : Option JsNum
  currentHoney : Option JsNum
  nectar : Option (NectarType → Option JsNum)
  atTime : Option ℚ
  username : Option String
  playerId : Option ℚ

/-- The body with every field absent. -/
def emptyBody : IngestBody :=
  ⟨none, none, none, none, none, none, none, none, none⟩

/-- One user's in-memory bucket (`getBucket`, `src/Index.js` lines
803-825).  The derived `publicId` (a SHA-1 prefix of the user key) carries
no information used by any claim and is omitted. -/
structure Bucket where
  honey : List Pt
  pollen : List Pt
  backpack : List BpEntry
  nectar : NectarType → List Pt
  currentHoney : JsNum
  lastCapacity : ℚ
  username : Option String
  lastSeen : Int

/-- A freshly created bucket. -/
def emptyBucket : Bucket :=
  ⟨[], [], [], fun _ => [], .num 0, 0, none, 0⟩

/-- `sanitizeUsername` (`src/Index.js` lines 789-792): trim, cut to 32
characters, `null` when empty or not a string. -/
def sanitizeUsername (name : Option String) : Option String :=
  match name with
  | none => none
  | some s =>
    let r := String.mk (s.trim.data.take 32)
    if r = "" then none else some r

/-- `clampPercent` (`src/Index.js` lines 794-797) on a finite value:
clamp into `[0, 100]`, written as an executable if-chain.  (The
`!isFinite` guard of the source cannot fire on `ℚ`;
`clampPercent_eq_max_min` below shows this equals
`Math.max(0, Math.min(100, x))`.) -/
def clampPercent (x : ℚ) : ℚ :=
  if x ≤ 0 then 0 else if 100 ≤ x then 100 else x

/-- `hasNectar` (`src/Index.js` lines 1201-1204): the `nectar` object is
present and some nectar type carries a finite number. -/
def hasNectar (b : IngestBody) : Bool :=
  match b.nectar with
  | none => false
  | some f =>
    NECTAR_TYPES.any fun τ =>
      match f τ with
      | some (.num _) => true
      | _ => false

/-- The `no metrics provided` validation of `POST /api/ingest`
(`src/Index.js` lines 1206-1214): none of `honey`, `pollen`, `backpack`,
`currentHoney` is a number and `hasNectar` is false. -/
def noMetricsB (b : IngestBody) : Bool :=
  b.honey.isNone && b.pollen.isNone && b.backpack.isNone &&
    b.currentHoney.isNone && !hasNectar b

/-- The event timestamp of an ingest (`src/Index.js` line 1198):
`typeof at === "number" ? Math.floor(at) : nowSec()`. -/
def ingestT (now : Int) (b : IngestBody) : Int :=
  match b.atTime with
  | some a => ⌊a⌋
  | none => now

/-- The capacity in effect for a backpack sample pushed by this ingest
(`src/Index.js` lines 1231-1235): the same call's finite
`backpackCapacity` if present, else the bucket's `lastCapacity`. -/
def effectiveCapacity (b : IngestBody) (bk : Bucket) : ℚ :=
  match b.backpackCapacity with
  | some (.num c) => c
  | _ => bk.lastCapacity

/-- The backpack entry pushed by `writeMemory` when `backpack` is a finite
number (`src/Index.js` lines 1229-1244). -/
def backpackEntryOf (t : Int) (q : ℚ) (capValue : ℚ) : BpEntry :=
  if 0 < capValue then
    ⟨t, q, some capValue, some (clampPercent (q / capValue * 100))⟩
  else
    ⟨t, q, none, some 0⟩

/-- The retention filter applied at the end of `writeMemory`
(`src/Index.js` lines 1260-1266): keep points with `p.t >= now - 86400*30`. -/
def retainRecent (now : Int) (t : Int) : Bool :=
  decide (now - 86400 * 30 ≤ t)

/-- The in-memory write path `writeMemory` of `POST /api/ingest`
(`src/Index.js` lines 1216-1266), as the net effect of the sequential
mutations on one bucket:
* `lastSeen` becomes the event timestamp;
* a sanitized `username` overwrites the stored one when present;
* each of `honey`, `pollen`, `backpack` and every finite nectar value is
  appended to its series (the backpack entry carrying the capacity in
  effect and a precomputed percentage);
* a finite `backpackCapacity` replaces `lastCapacity`;
* a numeric `currentHoney` (finite or not) replaces the scalar;
* finally every series is pruned to the last 30 days
  (lines 1260-1266), which also drops the just-pushed points when the
  event timestamp is older than the window. -/
def writeMemoryBucket (now : Int) (b : IngestBody) (bk : Bucket) : Bucket :=
  let t := ingestT now b
  let honeyApp : List Pt :=
    match b.honey with
    | some (.num q) => [⟨t, q⟩]
    | _ => []
  let pollenApp : List Pt :=
    match b.pollen with
    | some (.num q) => [⟨t, q⟩]
    | _ => []
  let bpApp : List BpEntry :=
    match b.backpack with
    | some (.num q) => [backpackEntryOf t q (effectiveCapacity b bk)]
    | _ => []
  let nectarApp : NectarType → List Pt := fun τ =>
    match b.nectar with
    | some f =>
      if hasNectar b then
        match f τ with
        | some (.num q) => [⟨t, q⟩]
        | _ => []
      else []
    | none => []
  { honey := (bk.honey ++ honeyApp).filter fun p => retainRecent now p.t
    pollen := (bk.pollen ++ pollenApp).filter fun p => retainRecent now p.t
    backpack := (bk.backpack ++ bpApp).filter fun p => retainRecent now p.t
    nectar := fun τ => (bk.nectar τ ++ nectarApp τ).filter fun p => retainRecent now p.t
    currentHoney :=
      match b.currentHoney with
      | some j => j
      | none => bk.currentHoney
    lastCapacity :=
      match b.backpackCapacity with
      | some (.num c) => c
      | _ => bk.lastCapacity
    username :=
      match sanitizeUsername b.username with
      | some n => some n
      | none => bk.username
    lastSeen := t }

/- ------------------------------------------------------------------ -/

/- Stats reads (memory mode). -/

/-- The percentage part of `shapeBackpackEntries` (`src/Index.js` lines
827-837): a stored numeric `pct` is clamped; otherwise a positive stored
capacity recomputes it; otherwise 0. -/
def shapePct (e : BpEntry) : ℚ :=
  match e.pct with
  | some p => clampPercent p
  | none =>
    match e.cap with
    | some c => if 0 < c then clampPercent (e.v / c * 100) else 0
    | none => 0

/-- One shaped backpack entry `{t, v, pct}`. -/
def shapeBackpackOne (e : BpEntry) : BpOut :=
  ⟨e.t, e.v, shapePct e⟩

/-- `shapeBackpackEntries` (`src/Index.js` lines 827-837). -/
def shapeBackpackEntries (entries : List BpEntry) : List BpOut :=
  entries.map shapeBackpackOne

/-- The body of a stats response (`collectMemoryStats`, `src/Index.js`
lines 855-876).  The derived public id of the `player` object is omitted
(it is a hash of the user key). -/
structure StatsPayload where
  honey : List Pt
  pollen : List Pt
  backpack : List BpOut
  nectar : NectarType → List Pt
  currentHoney : ℚ
  playerUsername : String

/-- `collectMemoryStats` (`src/Index.js` lines 855-876): every series is
the subsequence of points with `p.t >= cutoff`; backpack entries are
shaped to `{t, v, pct}`. -/
def collectMemoryStats (bk : Bucket) (cutoff : Int) : StatsPayload :=
  { honey := bk.honey.filter fun p => decide (cutoff ≤ p.t)
    pollen := bk.pollen.filter fun p => decide (cutoff ≤ p.t)
    backpack := shapeBackpackEntries (bk.backpack.filter fun p => decide (cutoff ≤ p.t))
    nectar := fun τ => (bk.nectar τ).filter fun p => decide (cutoff ≤ p.t)
    currentHoney :=
      match bk.currentHoney with
      | .num q => q
      | .nonfinite => 0
    playerUsername := bk.username.getD ("Player") }

/- ------------------------------------------------------------------ -/

/- Store level: the global maps and the ingest handler. -/

/-- Replace (or insert) the binding of `k` in an association list. -/
def setAssoc {κ β : Type} [DecidableEq κ] (m : List (κ × β)) (k : κ) (v : β) :
    List (κ × β) :=
  match m with
  | [] => [(k, v)]
  | (k', v') :: rest => if k' = k then (k, v) :: rest else (k', v') :: setAssoc rest k v

/-- Look up the binding of `k` in an association list. -/
def findAssoc {κ β : Type} [DecidableEq κ] (m : List (κ × β)) (k : κ) : Option β :=
  match m with
  | [] => none
  | (k', v') :: rest => if k' = k then some v' else findAssoc rest k

/-- A recorded player session (`recordMemorySession`, `src/Index.js` lines
602-614).  The derived `publicId` is omitted (a hash of key and id). -/
structure Session where
  playerId : Int
  username : String
  lastSeen : Int
  currentHoney : ℚ

/-- `normalizePlayerId` (`src/Index.js` lines 584-595) on a finite number:
`max 0 ⌊q⌋`.  (The string branch coerces with `Number(...)` first; the
caller of this model passes the coerced number.) -/
def normalizePlayerId (v : Option ℚ) : Option Int :=
  v.map fun q => max 0 ⌊q⌋

/-- The process-local memory store: the `samples` bucket map and the
`memorySessions` map, keyed by user key (and player id for sessions). -/
structure MemStore where
  samples : List (String × Bucket)
  memorySessions : List ((String × Int) × Session)

/-- `writeMemory` at store level (`src/Index.js` lines 1216-1276):
`getBucket` the user's bucket (creating it when absent), apply the bucket
write, and `recordMemorySession` when a positive player id is present. -/
def writeMemoryStore (now : Int) (userKey : String) (b : IngestBody) (st : MemStore) :
    MemStore :=
  let bk0 := (findAssoc st.samples userKey).getD emptyBucket
  let bk' := writeMemoryBucket now b bk0
  let t := ingestT now b
  let st1 : MemStore := { st with samples := setAssoc st.samples userKey bk' }
  match normalizePlayerId b.playerId with
  | some pid =>
    if 0 < pid then
      let uname := bk'.username.getD ("Player")
      let sHoney : ℚ :=
        match b.currentHoney with
        | some (.num q) => q
        | some .nonfinite => 0
        | none =>
          match bk'.currentHoney with
          | .num q => q
          | .nonfinite => 0
      { st1 with
        memorySessions :=
          setAssoc st1.memorySessions (userKey, pid) ⟨pid, uname, t, sHoney⟩ }
    else st1
  | none => st1

/-- The HTTP outcome of `POST /api/ingest`: a 400 or a 200 with a mode
tag.  (The handler has no 5xx path.) -/
inductive IngestResponse where
  | badRequest (msg : String)
  | okMode (mode : String)
  deriving DecidableEq, Repr

/-- The `POST /api/ingest` handler (`src/Index.js` lines 1186-1341) after
authentication, restricted to its effect on the memory store.  `useDb`
is `USE_DB`; `dbOk = false` means the durable attempt raises somewhere in
the `try` block, in which case the `catch` (lines 1335-1339) applies
`writeMemory` and answers `ok` with mode `memory-fallback`.  A successful
durable write only touches MySQL, which is outside `MemStore`. -/
def ingestHandler (useDb dbOk : Bool) (now : Int) (userKey : String) (b : IngestBody)
    (st : MemStore) : IngestResponse × MemStore :=
  if noMetricsB b then (.badRequest ("no metrics provided"), st)
  else if !useDb then (.okMode ("memory"), writeMemoryStore now userKey b st)
  else if dbOk then (.okMode ("mysql"), st)
  else (.okMode ("memory-fallback"), writeMemoryStore now userKey b st)

/- ------------------------------------------------------------------ -/

/- Leaderboard (middle variant, `src/Index.js` lines 298-348). -/

/-- A row of the `users` table as read by the leaderboard query. -/
structure UserRow where
  userKey : String
  totalHoney : ℚ
  lastActivity : Int
  deriving DecidableEq, Repr

/-- A row of the `samples` table. -/
structure SampleRow where
  userKey : String
  metric : String
  t : Int
  v : ℚ
  deriving DecidableEq, Repr

/-- One returned leaderboard entry (`src/Index.js` lines 330-336). -/
structure LbEntry where
  userKey : String
  totalHoney : ℚ
  dailyHoney : ℚ
  hourlyRate : ℚ
  lastActivity : Int
  deriving DecidableEq, Repr

/-- The effective `LIMIT`: `Math.min(parseInt(req.query.limit) || 25, 100)`
(`src/Index.js` line 303).  `none` models an absent or unparseable
parameter (`parseInt` gives `NaN`, which is falsy, as is `0`). -/
def effLimit (p : Option Int) : Int :=
  let raw : Int :=
    match p with
    | some n => if n = 0 then 25 else n
    | none => 25
  min raw 100

/-- `SUM(v)` over the last 24 hours of honey samples for one user
(`src/Index.js` lines 321-325); `NULL` on no rows becomes `0` via `|| 0`. -/
def dailyHoneySum (samples : List SampleRow) (uk : String) (now : Int) : ℚ :=
  ((samples.filter fun s =>
      decide (s.userKey = uk) && decide (s.metric = "honey") &&
        decide (now - 86400 ≤ s.t)).map (fun s => s.v)).sum

/-- The `GET /api/leaderboard` computation (`src/Index.js` lines 298-348)
over explicit table contents.  The SQL
`WHERE last_activity > ? ORDER BY total_honey DESC LIMIT ?` is a filter,
a sort and a take; `ORDER BY`/`Array.prototype.sort` are modelled with
`List.insertionSort` (only the ordering and the multiset of rows matter).
A negative `LIMIT` parameter is a MySQL error, caught and answered with a
500 (lines 344-347); that case is `none`. -/
def leaderboardHandler (users : List UserRow) (samples : List SampleRow) (now : Int)
    (limitParam : Option Int) : Option (List LbEntry) :=
  let cutoffT := now - 86400 * 7
  let lim := effLimit limitParam
  if lim < 0 then none
  else
    let rows :=
      (List.insertionSort (fun a b : UserRow => b.totalHoney ≤ a.totalHoney)
        (users.filter fun u => decide (cutoffT < u.lastActivity))).take lim.toNat
    let entries := rows.map fun u =>
      let d := dailyHoneySum samples u.userKey now
      LbEntry.mk u.userKey u.totalHoney d (d / 24) u.lastActivity
    some (List.insertionSort (fun a b : LbEntry => b.hourlyRate ≤ a.hourlyRate) entries)

/- ------------------------------------------------------------------ -/

/- Controls mailbox (`src/Index.js` lines 1363-1382). -/

/-- A queued command after stamping: the original payload spread together
with `at: nowSec()`. -/
structure StampedCmd where
  payload : String
  stampedAt : Int
  deriving DecidableEq, Repr

/-- The HTTP outcome of `POST /api/controls/commands`. -/
inductive CmdResponse where
  | badRequest (msg : String)
  | okQueued (queued : Nat)
  deriving DecidableEq, Repr

/-- `POST /api/controls/commands` (`src/Index.js` lines 1363-1376) on one
user's queue: reject an absent or empty `commands` array, otherwise stamp
and append all commands and trim the queue to its last 100 entries
(`slice(-100)`). -/
def postCommands (now : Int) (cmds : Option (List String)) (q : List StampedCmd) :
    CmdResponse × List StampedCmd :=
  match cmds with
  | none => (.badRequest ("commands array required"), q)
  | some [] => (.badRequest ("commands array required"), q)
  | some cs =>
    let stamped := cs.map fun c => StampedCmd.mk c now
    let q1 := q ++ stamped
    let q2 := if 100 < q1.length then q1.drop (q1.length - 100) else q1
    (.okQueued q2.length, q2)

/-- `GET /api/controls/commands` (`src/Index.js` lines 1378-1382) on one
user's queue: return the whole queue and reset it to empty. -/
def getCommandsDrain (q : List StampedCmd) : List StampedCmd × List StampedCmd :=
  (q, [])

/- ------------------------------------------------------------------ -/

/- Claim-level vocabulary for the sample store. -/

/-- Selector for the metrics named by the round-trip claim. -/
inductive MetricSel where
  | honey
  | pollen
  | backpack
  | nectarOf (τ : NectarType)
  deriving DecidableEq, Repr

/-- An ingest body carrying exactly one metric sample `(t, v)` for the
selected metric (plus the client event time `at := t`). -/
def mkBody (m : MetricSel) (v : ℚ) (t : Int) : IngestBody :=
  match m with
  | .honey => { emptyBody with honey := some (.num v), atTime := some (t : ℚ) }
  | .pollen => { emptyBody with pollen := some (.num v), atTime := some (t : ℚ) }
  | .backpack => { emptyBody with backpack := some (.num v), atTime := some (t : ℚ) }
  | .nectarOf τ =>
    { emptyBody with
      nectar := some fun τ' => if τ' = τ then some (.num v) else none,
      atTime := some (t : ℚ) }

/-- Whether the series selected by `m` in a stats payload contains the
exact pair `(t, v)`. -/
def seriesContains (m : MetricSel) (p : StatsPayload) (t : Int) (v : ℚ) : Bool :=
  match m with
  | .honey => p.honey.any fun e => decide (e.t = t) && decide (e.v = v)
  | .pollen => p.pollen.any fun e => decide (e.t = t) && decide (e.v = v)
  | .backpack => p.backpack.any fun e => decide (e.t = t) && decide (e.v = v)
  | .nectarOf τ => (p.nectar τ).any fun e => decide (e.t = t) && decide (e.v = v)

/-- Whether any series of a stats payload contains a point with
timestamp `t`. -/
def payloadMentionsB (p : StatsPayload) (t : Int) : Bool :=
  (p.honey.any fun e => decide (e.t = t)) ||
    (p.pollen.any fun e => decide (e.t = t)) ||
    (p.backpack.any fun e => decide (e.t = t)) ||
    (NECTAR_TYPES.any fun τ => (p.nectar τ).any fun e => decide (e.t = t))

/- ------------------------------------------------------------------ -/

/- Theorems: backpack percentage (claim C4). -/

/-- The claim-side percentage rule, following the spec's words: if some
capacity sample `c > 0` exists at or before the backpack sample's
timestamp, the percent is `clamp(100*v/c, 0, 100)` computed with the most
recently seen such capacity; with no such capacity it is 0.  `caps` lists
the ingested capacity samples as `(timestamp, value)` pairs in arrival
order. -/
def specBackpackPercent (caps : List Pt) (t : Int) (v : ℚ) : ℚ :=
  match caps.foldl (fun acc p => if p.t ≤ t ∧ 0 < p.v then some p.v else acc) none with
  | some c => clampPercent (100 * v / c)
  | none => 0

/-- The list of points appended by `writeMemory` for one plain metric
field: a singleton when the field is a finite number, else empty. -/
def pushApp (t0 : Int) (o : Option JsNum) : List Pt :=
  match o with
  | some (JsNum.num q) => [Pt.mk t0 q]
  | _ => []

/-- The backpack entries appended by `writeMemory`. -/
def pushBpApp (t0 : Int) (cap : ℚ) (o : Option JsNum) : List BpEntry :=
  match o with
  | some (JsNum.num q) => [backpackEntryOf t0 q cap]
  | _ => []

/-- The nectar points appended by `writeMemory` for one nectar type. -/
def pushNectarApp (t0 : Int) (b : IngestBody) (τ : NectarType) : List Pt :=
  match b.nectar with
  | some f =>
    if hasNectar b then
      match f τ with
      | some (JsNum.num q) => [Pt.mk t0 q]
      | _ => []
    else []
  | none => []

/-- The bucket a read or write starts from: the stored one, or a fresh
empty bucket for an unseen key (`getBucket`). -/
def bucketOf (st : MemStore) (uk : String) : Bucket :=
  (findAssoc st.samples uk).getD emptyBucket

/- ------------------------------------------------------------------ -/

/- Theorems: leaderboard (claim C8). -/

instance : IsTrans LbEntry (fun a b => b.hourlyRate ≤ a.hourlyRate) :=
  ⟨fun _ _ _ hab hbc => le_trans hbc hab⟩

instance : IsTotal LbEntry (fun a b => b.hourlyRate ≤ a.hourlyRate) :=
  ⟨fun a b => le_total b.hourlyRate a.hourlyRate⟩

/- ------------------------------------------------------------------ -/
/- Theorems. -/

theorem mem_NECTAR_TYPES (τ : NectarType) : τ ∈ NECTAR_TYPES := by
  cases τ <;> decide

theorem toSeconds_le_cap (p : Option String) : toSeconds p ≤ 2592000 := by
  match p with
  | none => norm_num [toSeconds]
  | some s =>
    simp only [toSeconds]
    split
    · norm_num
    · match hp : parsePeriod s with
      | none => norm_num
      | some (n, u) =>
        simp only
        split <;> try split <;> try split <;> try split
        all_goals first
          | exact le_trans (min_le_right _ _) (by norm_num)
          | norm_num

theorem clampPercent_eq_max_min (x : ℚ) : clampPercent x = max 0 (min 100 x) := by
  unfold clampPercent
  rcases le_or_lt x 0 with h | h
  · rw [if_pos h, min_eq_right (le_trans h (by norm_num)), max_eq_left h]
  · rw [if_neg (not_le.mpr h)]
    rcases le_or_lt 100 x with h2 | h2
    · rw [if_pos h2, min_eq_left h2, max_eq_right (by norm_num)]
    · rw [if_neg (not_le.mpr h2), min_eq_right (le_of_lt h2),
        max_eq_right (le_of_lt h)]

theorem findAssoc_setAssoc {κ β : Type} [DecidableEq κ] (m : List (κ × β)) (k : κ) (v : β) :
    findAssoc (setAssoc m k v) k = some v := by
  induction m with
  | nil => simp [setAssoc, findAssoc]
  | cons hd tl ih =>
    obtain ⟨k', v'⟩ := hd
    by_cases hk : k' = k
    · simp [setAssoc, findAssoc, hk]
    · simp [setAssoc, findAssoc, hk, ih]

/- ------------------------------------------------------------------ -/

/- Theorems: Time-Window Resolver. -/

theorem parsePeriod_concat (s : String) (ds : List Char) (u : Char)
    (hdata : s.data = ds ++ [u]) (hne : ds ≠ [])
    (hdig : ∀ c ∈ ds, c.isDigit = true) (hu : isUnitChar u = true) :
    parsePeriod s = some (digitsToNat ds, u) := by
  unfold parsePeriod
  rw [hdata]
  simp only [List.getLast?_concat, List.dropLast_concat, List.isEmpty_iff]
  simp only [hu, List.all_eq_true, hne, Bool.not_eq_true]
  simp [hne, List.isEmpty_iff, List.all_eq_true]
  exact hdig

/-- C2: for a period of the form `<n><unit>` with unit in `{s, m, h, d}`
the resolver returns `min (n * unit_seconds) 2592000`; for every other
input (absent, empty, or non-matching) it returns 86400; and the result
is always at most 2592000 (the resolver is total, so it never raises). -/
theorem toSeconds_spec :
    toSeconds none = 86400 ∧
    toSeconds (some ("")) = 86400 ∧
    (∀ (s : String) (ds : List Char) (u : Char),
      s.data = ds ++ [u] → ds ≠ [] → (∀ c ∈ ds, c.isDigit = true) →
      isUnitChar u = true →
      toSeconds (some s) = min (digitsToNat ds * unitSeconds u) 2592000) ∧
    (∀ s : String, parsePeriod s = none → toSeconds (some s) = 86400) ∧
    (∀ p : Option String, toSeconds p ≤ 2592000) := by
  refine ⟨rfl, rfl, ?_, ?_, toSeconds_le_cap⟩
  · intro s ds u hdata hne hdig hu
    have hs : s ≠ "" := by
      intro hs
      rw [hs] at hdata
      exact List.cons_ne_nil u [] (List.append_eq_nil.mp hdata.symm).2
    have hp := parsePeriod_concat s ds u hdata hne hdig hu
    have hcases : u = 's' ∨ u = 'm' ∨ u = 'h' ∨ u = 'd' := by
      simp only [isUnitChar, Bool.or_eq_true, decide_eq_true_eq] at hu
      tauto
    simp only [toSeconds, hp, if_neg hs]
    rcases hcases with h | h | h | h <;> subst h
    · rw [if_pos rfl]
      norm_num [show unitSeconds 's' = 1 from rfl]
    · rw [if_neg (by decide), if_pos rfl]
      norm_num [show unitSeconds 'm' = 60 from rfl]
    · rw [if_neg (by decide), if_neg (by decide), if_pos rfl]
      norm_num [show unitSeconds 'h' = 3600 from rfl]
    · rw [if_neg (by decide), if_neg (by decide), if_neg (by decide), if_pos rfl]
      norm_num [show unitSeconds 'd' = 86400 from rfl]
  · intro s hp
    simp [toSeconds, hp]

/-- Witness for C2 at concrete inputs: `90m` resolves to 5400 seconds and
a non-matching string falls back to the 86400 default. -/
theorem toSeconds_spec_witness :
    toSeconds (some ("90m")) = min (90 * unitSeconds 'm') 2592000 ∧
    toSeconds (some ("bees")) = 86400 :=
  ⟨by
    have h := toSeconds_spec.2.2.1 ("90m") ['9', '0'] 'm' (by decide) (by decide)
      (by decide) (by decide)
    simpa using h,
   toSeconds_spec.2.2.2.1 ("bees") (by decide)⟩

/- ------------------------------------------------------------------ -/

/- Theorems: read-path authentication (claim C7). -/

/-- C7 counterexample: with `CLIENT_KEY` still the placeholder default and
no `x-client-key` header, the guard at `src/Index.js` lines 211-226
answers 401, while the claim (and the guard at lines 729-742) admits the
request. -/
theorem readKey_policy_counterexample :
    requireReadKeyV2 ("replace-this-client-key") (some ("u")) none none =
      .unauthorized ("unauthorized: invalid x-client-key") ∧
    requireReadKey ("replace-this-client-key") (some ("u")) none = .allowed ("u") := by
  constructor <;> rfl

/-- C7 (amended): the guard at `src/Index.js` lines 729-742 behaves as the
claim states (user key always required, client key checked exactly when
`CLIENT_KEY` differs from empty and from the placeholder), while the
variant at lines 211-226 requires the user key (header or `user_key`
query parameter) but compares `x-client-key` against `CLIENT_KEY`
unconditionally. -/
theorem readKey_policy_amended (ck u : String) (ckh : Option String) (hu : u ≠ "") :
    (requireReadKey ck none ckh = .badRequest ("x-user-key required")) ∧
    ((ck = "" ∨ ck = "replace-this-client-key") →
      requireReadKey ck (some u) ckh = .allowed u) ∧
    (ck ≠ "" → ck ≠ "replace-this-client-key" →
      (requireReadKey ck (some u) ckh = .allowed u ↔ ckh = some ck)) ∧
    (requireReadKeyV2 ck none none ckh = .badRequest ("x-user-key required")) ∧
    (requireReadKeyV2 ck (some u) none ckh = .allowed u ↔ ckh = some ck) := by
  have htru : jsTruthy (some u) = true := by
    simp [jsTruthy, hu]
  refine ⟨rfl, ?_, ?_, rfl, ?_⟩
  · intro hck
    have : (ck = "" || ck = "replace-this-client-key") = true := by
      rcases hck with h | h <;> simp [h]
    simp [requireReadKey, htru, this, Option.getD]
  · intro h1 h2
    have : (ck = "" || ck = "replace-this-client-key") = false := by
      simp [h1, h2]
    by_cases hkey : ckh = some ck
    · simp [requireReadKey, htru, this, hkey, Option.getD]
    · simp [requireReadKey, htru, this, hkey, Option.getD]
  · by_cases hkey : ckh = some ck
    · simp [requireReadKeyV2, htru, hkey, Option.getD]
    · simp [requireReadKeyV2, htru, hkey, Option.getD]

/-- Witness for C7 (amended) at a configured secret and a matching header. -/
theorem readKey_policy_witness :
    requireReadKey ("secret") (some ("u")) (some ("secret")) = .allowed ("u") :=
  ((readKey_policy_amended ("secret") ("u") (some ("secret")) (by decide)).2.2.1
    (by decide) (by decide)).mpr rfl

/- ------------------------------------------------------------------ -/

/- Theorems: controls mailbox (claim C9). -/

/-- C9: after any successful command post the per-user queue is exactly
the suffix of the appended queue formed by its most recent 100 entries
(hence holds at most 100 commands), the response reports the queue
length, and a drain returns the whole queue and leaves it empty, so a
second consecutive drain returns an empty list. -/
theorem controls_mailbox (now : Int) (cs : List String) (q : List StampedCmd)
    (h : cs ≠ []) :
    (postCommands now (some cs) q).2 =
      (q ++ cs.map fun c => StampedCmd.mk c now).drop
        ((q ++ cs.map fun c => StampedCmd.mk c now).length - 100) ∧
    (postCommands now (some cs) q).2.length ≤ 100 ∧
    (postCommands now (some cs) q).1 =
      .okQueued (postCommands now (some cs) q).2.length ∧
    getCommandsDrain ((postCommands now (some cs) q).2) =
      ((postCommands now (some cs) q).2, []) ∧
    (getCommandsDrain (getCommandsDrain ((postCommands now (some cs) q).2)).2).1 = [] := by
  match cs, h with
  | c :: cs', _ =>
    simp only [postCommands]
    constructor
    · split
      · rfl
      · rename_i hlen
        rw [Nat.sub_eq_zero_of_le (Nat.le_of_not_lt hlen), List.drop_zero]
    · refine ⟨?_, by trivial, by trivial, by trivial⟩
      split
      · rename_i hlen
        rw [List.length_drop]
        omega
      · rename_i hlen
        exact Nat.le_of_not_lt hlen

/-- Witness for C9: posting one command to an empty queue leaves at most
100 queued commands. -/
theorem controls_mailbox_witness :
    (postCommands 5 (some [("go")]) []).2.length ≤ 100 :=
  (controls_mailbox 5 [("go")] [] (by decide)).2.1

/- ------------------------------------------------------------------ -/

/- Generic helper lemmas about filtered series. -/

theorem any_map_general {α β : Type} (f : α → β) (l : List α) (p : β → Bool) :
    (l.map f).any p = l.any fun a => p (f a) := by
  induction l with
  | nil => rfl
  | cons a l ih => simp [List.any_cons, ih]

theorem any_filter_lt_eq_false {α : Type} (ft : α → Int) (p : α → Bool) (l : List α)
    (c t : Int) (hlt : t < c) (hp : ∀ e, p e = true → ft e = t) :
    ((l.filter fun e => decide (c ≤ ft e)).any p) = false := by
  rw [List.any_eq_false]
  intro e he hpe
  have h1 := (List.mem_filter.mp he).2
  have h2 := hp e (by simpa using hpe)
  simp only [decide_eq_true_eq] at h1
  omega

theorem filter_append_drop {α : Type} (pf : α → Bool) (l app : List α)
    (h : ∀ x ∈ app, pf x = false) : (l ++ app).filter pf = l.filter pf := by
  rw [List.filter_append]
  have : app.filter pf = [] := by
    rw [List.filter_eq_nil_iff]
    intro a ha
    simp [h a ha]
  rw [this, List.append_nil]

theorem filter_append_keep {α : Type} (pf : α → Bool) (l : List α) (a : α)
    (h : pf a = true) : (l ++ [a]).filter pf = l.filter pf ++ [a] := by
  rw [List.filter_append]
  simp [h]

/- ------------------------------------------------------------------ -/

/- Theorems: retention (claim C3). -/

/-- C3: a sample older than 30 days at read time appears in no series of a
stats read, whatever period the caller requests, because the resolved
window is capped at 2592000 seconds and every series is filtered at
`now - window`. -/
theorem retention_read (bk : Bucket) (now t : Int) (per : Option String)
    (h : t < now - 2592000) :
    payloadMentionsB (collectMemoryStats bk (now - (toSeconds per : Int))) t = false := by
  have hcap : (toSeconds per : Int) ≤ 2592000 := by
    exact_mod_cast toSeconds_le_cap per
  have hlt : t < now - (toSeconds per : Int) := by omega
  simp only [payloadMentionsB, collectMemoryStats, Bool.or_eq_false_iff]
  refine ⟨⟨⟨?_, ?_⟩, ?_⟩, ?_⟩
  · exact any_filter_lt_eq_false Pt.t _ _ _ _ hlt (fun e he => by simpa using he)
  · exact any_filter_lt_eq_false Pt.t _ _ _ _ hlt (fun e he => by simpa using he)
  · unfold shapeBackpackEntries
    rw [any_map_general]
    exact any_filter_lt_eq_false BpEntry.t _ _ _ _ hlt
      (fun e he => by simpa [shapeBackpackOne] using he)
  · rw [List.any_eq_false]
    intro τ _
    intro hany
    have := any_filter_lt_eq_false Pt.t (fun e => decide (e.t = t)) (bk.nectar τ) _ _ hlt
      (fun e he => by simpa using he)
    rw [this] at hany
    cases hany

/-- Witness for C3: a sample at timestamp 0 is not returned by a read at
server time 2592002 even for the maximal 30-day window. -/
theorem retention_read_witness :
    payloadMentionsB
      (collectMemoryStats { emptyBucket with honey := [Pt.mk 0 1] }
        (2592002 - (toSeconds (some ("30d")) : Int))) 0 = false :=
  retention_read { emptyBucket with honey := [Pt.mk 0 1] } 2592002 0 (some ("30d"))
    (by decide)

/- ------------------------------------------------------------------ -/

/- Theorems: ingest/read round trip (claim C1). -/

theorem ingestT_mkBody (now : Int) (m : MetricSel) (v : ℚ) (t : Int) :
    ingestT now (mkBody m v t) = t := by
  cases m <;> simp [ingestT, mkBody, emptyBody, Int.floor_intCast]

theorem writeMemory_mkBody_honey (now : Int) (v : ℚ) (t : Int) (bk : Bucket) :
    (writeMemoryBucket now (mkBody .honey v t) bk).honey
      = (bk.honey ++ [Pt.mk t v]).filter fun p => retainRecent now p.t := by
  simp [writeMemoryBucket, mkBody, emptyBody, ingestT, Int.floor_intCast]

theorem writeMemory_mkBody_pollen (now : Int) (v : ℚ) (t : Int) (bk : Bucket) :
    (writeMemoryBucket now (mkBody .pollen v t) bk).pollen
      = (bk.pollen ++ [Pt.mk t v]).filter fun p => retainRecent now p.t := by
  simp [writeMemoryBucket, mkBody, emptyBody, ingestT, Int.floor_intCast]

theorem writeMemory_mkBody_backpack (now : Int) (v : ℚ) (t : Int) (bk : Bucket) :
    (writeMemoryBucket now (mkBody .backpack v t) bk).backpack
      = (bk.backpack ++ [backpackEntryOf t v bk.lastCapacity]).filter
          fun p => retainRecent now p.t := by
  simp [writeMemoryBucket, mkBody, emptyBody, ingestT, Int.floor_intCast,
    effectiveCapacity]

theorem hasNectar_mkBody (τ : NectarType) (v : ℚ) (t : Int) :
    hasNectar (mkBody (.nectarOf τ) v t) = true := by
  simp only [hasNectar, mkBody, emptyBody]
  rw [List.any_eq_true]
  exact ⟨τ, mem_NECTAR_TYPES τ, by simp⟩

theorem writeMemory_mkBody_nectar (now : Int) (τ : NectarType) (v : ℚ) (t : Int)
    (bk : Bucket) :
    (writeMemoryBucket now (mkBody (.nectarOf τ) v t) bk).nectar τ
      = (bk.nectar τ ++ [Pt.mk t v]).filter fun p => retainRecent now p.t := by
  have hn := hasNectar_mkBody τ v t
  simp only [mkBody, emptyBody] at hn
  simp [writeMemoryBucket, mkBody, emptyBody, ingestT, Int.floor_intCast, hn]

theorem backpackEntryOf_t (t : Int) (q c : ℚ) : (backpackEntryOf t q c).t = t := by
  unfold backpackEntryOf
  split <;> rfl

theorem backpackEntryOf_v (t : Int) (q c : ℚ) : (backpackEntryOf t q c).v = q := by
  unfold backpackEntryOf
  split <;> rfl

/-- C1 counterexample: ingesting `{honey: 1, at: 0}` at server time
2592001 prunes the pushed sample inside the same `writeMemory` call
(0 < 2592001 - 2592000), so a read with cutoff 0 ≤ t does not contain
the pair (0, 1), contradicting the claim as stated for arbitrary
timestamps. -/
theorem roundtrip_counterexample :
    (0 : Int) ≤ 0 ∧
    seriesContains .honey
      (collectMemoryStats (writeMemoryBucket 2592001 (mkBody .honey 1 0) emptyBucket) 0)
      0 1 = false := by
  constructor
  · exact le_refl 0
  · decide

/-- C1 (amended): for a sample whose timestamp is still inside the 30-day
retention window at ingest time (`now - 2592000 ≤ t`), appending `(t, v)`
for any of the honey, pollen, backpack, or nectar-type series and then
reading with a cutoff `≤ t` yields that series containing the exact pair
`(t, v)`, while reading with a cutoff `> t` yields a series without it.
(The retention hypothesis is forced by the in-call pruning,
`src/Index.js` lines 1260-1266.) -/
theorem roundtrip_amended (m : MetricSel) (v : ℚ) (t now : Int) (bk : Bucket) (c : Int)
    (hret : now - 2592000 ≤ t) :
    (c ≤ t →
      seriesContains m
        (collectMemoryStats (writeMemoryBucket now (mkBody m v t) bk) c) t v = true) ∧
    (t < c →
      seriesContains m
        (collectMemoryStats (writeMemoryBucket now (mkBody m v t) bk) c) t v = false) := by
  have hkeepR : retainRecent now t = true := by
    simp only [retainRecent, decide_eq_true_eq]
    omega
  constructor
  · intro hc
    cases m with
    | honey =>
      simp only [seriesContains, collectMemoryStats]
      rw [writeMemory_mkBody_honey,
        filter_append_keep (fun p => retainRecent now p.t) bk.honey (Pt.mk t v)
          (by simpa using hkeepR),
        filter_append_keep (fun p => decide (c ≤ p.t)) _ (Pt.mk t v) (by simpa using hc),
        List.any_append]
      simp
    | pollen =>
      simp only [seriesContains, collectMemoryStats]
      rw [writeMemory_mkBody_pollen,
        filter_append_keep (fun p => retainRecent now p.t) bk.pollen (Pt.mk t v)
          (by simpa using hkeepR),
        filter_append_keep (fun p => decide (c ≤ p.t)) _ (Pt.mk t v) (by simpa using hc),
        List.any_append]
      simp
    | backpack =>
      simp only [seriesContains, collectMemoryStats]
      rw [writeMemory_mkBody_backpack,
        filter_append_keep (fun p => retainRecent now p.t) bk.backpack
          (backpackEntryOf t v bk.lastCapacity)
          (by simpa [backpackEntryOf_t] using hkeepR),
        filter_append_keep (fun p => decide (c ≤ p.t)) _
          (backpackEntryOf t v bk.lastCapacity)
          (by simpa [backpackEntryOf_t] using hc)]
      unfold shapeBackpackEntries
      rw [List.map_append, List.any_append]
      simp [shapeBackpackOne, backpackEntryOf_t, backpackEntryOf_v]
    | nectarOf τ =>
      simp only [seriesContains, collectMemoryStats]
      rw [writeMemory_mkBody_nectar,
        filter_append_keep (fun p => retainRecent now p.t) (bk.nectar τ) (Pt.mk t v)
          (by simpa using hkeepR),
        filter_append_keep (fun p => decide (c ≤ p.t)) _ (Pt.mk t v) (by simpa using hc),
        List.any_append]
      simp
  · intro hc
    cases m with
    | honey =>
      simp only [seriesContains, collectMemoryStats]
      exact any_filter_lt_eq_false Pt.t _ _ _ _ hc
        (fun e he => by
          simp only [Bool.and_eq_true, decide_eq_true_eq] at he
          exact he.1)
    | pollen =>
      simp only [seriesContains, collectMemoryStats]
      exact any_filter_lt_eq_false Pt.t _ _ _ _ hc
        (fun e he => by
          simp only [Bool.and_eq_true, decide_eq_true_eq] at he
          exact he.1)
    | backpack =>
      simp only [seriesContains, collectMemoryStats]
      unfold shapeBackpackEntries
      rw [any_map_general]
      exact any_filter_lt_eq_false BpEntry.t _ _ _ _ hc
        (fun e he => by
          simp only [shapeBackpackOne, Bool.and_eq_true, decide_eq_true_eq] at he
          exact he.1)
    | nectarOf τ =>
      simp only [seriesContains, collectMemoryStats]
      exact any_filter_lt_eq_false Pt.t _ _ _ _ hc
        (fun e he => by
          simp only [Bool.and_eq_true, decide_eq_true_eq] at he
          exact he.1)

/-- Witness for C1 (amended): a honey sample at `t = 100` ingested at
server time 100 is visible with cutoff 50 and invisible with cutoff 200. -/
theorem roundtrip_amended_witness :
    seriesContains .honey
      (collectMemoryStats (writeMemoryBucket 100 (mkBody .honey 2 100) emptyBucket) 50)
      100 2 = true ∧
    seriesContains .honey
      (collectMemoryStats (writeMemoryBucket 100 (mkBody .honey 2 100) emptyBucket) 200)
      100 2 = false :=
  ⟨(roundtrip_amended .honey 2 100 100 emptyBucket 50 (by decide)).1 (by decide),
   (roundtrip_amended .honey 2 100 100 emptyBucket 200 (by decide)).2 (by decide)⟩

theorem clampPercent_idem (x : ℚ) : clampPercent (clampPercent x) = clampPercent x := by
  have h1 : (0 : ℚ) ≤ max 0 (min 100 x) := le_max_left _ _
  have h2 : max 0 (min 100 x) ≤ 100 := max_le (by norm_num) (min_le_left _ _)
  rw [clampPercent_eq_max_min x, clampPercent_eq_max_min (max 0 (min 100 x)),
    min_eq_right h2, max_eq_right h1]

theorem writeMemoryBucket_backpack_eq (now : Int) (b : IngestBody) (bk : Bucket) (v : ℚ)
    (hb : b.backpack = some (.num v)) :
    (writeMemoryBucket now b bk).backpack
      = (bk.backpack ++ [backpackEntryOf (ingestT now b) v (effectiveCapacity b bk)]).filter
          fun p => retainRecent now p.t := by
  simp [writeMemoryBucket, hb, effectiveCapacity]

/-- C4 counterexample: `src/Index.js` computes the percentage from the
capacity in ingest-arrival order, not from capacity samples at or before
the sample's timestamp.  Ingesting `{backpack: 10, backpackCapacity: 100}`
with event time 5 and then `{backpack: 50}` with event time 2 (both at
server time 10) stores the second sample with percent 50, although the
only capacity sample sits at timestamp 5, strictly after 2, so the claim
demands percent 0 (as `specBackpackPercent` computes). -/
theorem backpack_percent_counterexample :
    specBackpackPercent [Pt.mk 5 100] 2 50 = 0 ∧
    (collectMemoryStats
        (writeMemoryBucket 10
          { emptyBody with backpack := some (.num 50), atTime := some 2 }
          (writeMemoryBucket 10
            { emptyBody with
              backpack := some (.num 10), backpackCapacity := some (.num 100),
              atTime := some 5 }
            emptyBucket))
        0).backpack
      = [BpOut.mk 5 10 10, BpOut.mk 2 50 50] := by
  constructor
  · decide
  · norm_num [writeMemoryBucket, collectMemoryStats, shapeBackpackEntries,
      shapeBackpackOne, shapePct, backpackEntryOf, effectiveCapacity, ingestT,
      emptyBody, emptyBucket, retainRecent, clampPercent, List.filter]

/-- C4 (amended): the percentage attached to a returned backpack sample is
computed at ingest time from the capacity then in effect — the same
call's finite `backpackCapacity` when present, otherwise the most
recently ingested finite capacity (in arrival order, regardless of
timestamps; 0 when none was ever supplied): percent =
`clamp(100*v/c, 0, 100)` when that capacity `c` is positive, else 0. -/
theorem backpack_percent_amended (now : Int) (b : IngestBody) (bk : Bucket) (v : ℚ)
    (c' : Int) (hb : b.backpack = some (.num v))
    (hret : now - 2592000 ≤ ingestT now b) (hc : c' ≤ ingestT now b) :
    ∃ e : BpOut,
      e ∈ (collectMemoryStats (writeMemoryBucket now b bk) c').backpack ∧
      e.t = ingestT now b ∧ e.v = v ∧
      e.pct = (if 0 < effectiveCapacity b bk then
          clampPercent (100 * v / effectiveCapacity b bk) else 0) := by
  set t := ingestT now b with ht
  set cap := effectiveCapacity b bk with hcap
  refine ⟨shapeBackpackOne (backpackEntryOf t v cap), ?_, ?_, ?_, ?_⟩
  · simp only [collectMemoryStats]
    rw [writeMemoryBucket_backpack_eq now b bk v hb,
      filter_append_keep (fun p => retainRecent now p.t) bk.backpack
        (backpackEntryOf t v cap)
        (by simp only [backpackEntryOf_t, retainRecent, decide_eq_true_eq]; omega),
      filter_append_keep (fun p => decide (c' ≤ p.t)) _ (backpackEntryOf t v cap)
        (by simp only [backpackEntryOf_t, decide_eq_true_eq]; omega)]
    unfold shapeBackpackEntries
    rw [List.map_append]
    exact List.mem_append.mpr (Or.inr (by simp))
  · exact backpackEntryOf_t t v cap
  · exact backpackEntryOf_v t v cap
  · by_cases hpos : 0 < cap
    · rw [if_pos hpos]
      simp only [shapeBackpackOne, shapePct, backpackEntryOf, if_pos hpos]
      rw [clampPercent_idem]
      congr 1
      field_simp
      ring
    · rw [if_neg hpos]
      simp only [shapeBackpackOne, shapePct, backpackEntryOf, if_neg hpos]
      norm_num [clampPercent]

/-- Witness for C4 (amended): a backpack sample of 50 with same-call
capacity 200 is returned with percent 25. -/
theorem backpack_percent_amended_witness :
    ∃ e : BpOut,
      e ∈ (collectMemoryStats
            (writeMemoryBucket 10
              { emptyBody with
                backpack := some (.num 50), backpackCapacity := some (.num 200),
                atTime := some 3 }
              emptyBucket) 0).backpack ∧
      e.t = ingestT 10 { emptyBody with
                backpack := some (.num 50), backpackCapacity := some (.num 200),
                atTime := some 3 } ∧
      e.v = 50 ∧
      e.pct = (if 0 < effectiveCapacity
            { emptyBody with
              backpack := some (.num 50), backpackCapacity := some (.num 200),
              atTime := some 3 } emptyBucket then
          clampPercent (100 * 50 / effectiveCapacity
            { emptyBody with
              backpack := some (.num 50), backpackCapacity := some (.num 200),
              atTime := some 3 } emptyBucket) else 0) :=
  backpack_percent_amended 10
    { emptyBody with
      backpack := some (.num 50), backpackCapacity := some (.num 200), atTime := some 3 }
    emptyBucket 50 0 rfl (by decide) (by decide)

/- ------------------------------------------------------------------ -/

/- Theorems: ingest validation and durability policy (claims C5, C6). -/

/-- C5: an ingest in which none of the recognized fields (`honey`,
`pollen`, `backpack`, `currentHoney`, any nectar value) is present as a
number fails with the 400 `no metrics provided` validation error and
leaves the memory store (buckets and sessions) completely unchanged. -/
theorem ingest_no_metrics (useDb dbOk : Bool) (now : Int) (uk : String) (b : IngestBody)
    (st : MemStore)
    (h1 : b.honey = none) (h2 : b.pollen = none) (h3 : b.backpack = none)
    (h4 : b.currentHoney = none)
    (h5 : ∀ f, b.nectar = some f → ∀ τ, f τ = none) :
    ingestHandler useDb dbOk now uk b st = (.badRequest ("no metrics provided"), st) := by
  have hnm : noMetricsB b = true := by
    simp only [noMetricsB, h1, h2, h3, h4, Option.isNone_none, Bool.true_and,
      Bool.and_eq_true, Bool.not_eq_true']
    cases hn : b.nectar with
    | none => simp [hasNectar, hn]
    | some f =>
      have hf := h5 f hn
      simp only [hasNectar, hn]
      rw [List.any_eq_false]
      intro τ _
      rw [hf τ]
      simp
  simp [ingestHandler, hnm]

/-- Witness for C5: the all-absent body is rejected and the store is
untouched. -/
theorem ingest_no_metrics_witness :
    ingestHandler true true 0 ("u") emptyBody (MemStore.mk [] []) =
      (.badRequest ("no metrics provided"), MemStore.mk [] []) :=
  ingest_no_metrics true true 0 ("u") emptyBody (MemStore.mk [] []) rfl rfl rfl rfl
    (fun _ hf => nomatch hf)

/-- C6: an ingest that carries at least one recognized metric (in the
source's sense: one of the four scalar fields is a number, or some nectar
value is a finite number) always receives `ok` with a mode tag in
`{mysql, memory, memory-fallback}` — the handler has no 5xx path — and
an exception during the durable attempt results in the in-memory write
being applied and mode `memory-fallback` being reported. -/
theorem ingest_has_metrics (useDb dbOk : Bool) (now : Int) (uk : String) (b : IngestBody)
    (st : MemStore) (h : noMetricsB b = false) :
    (∃ m, (ingestHandler useDb dbOk now uk b st).1 = .okMode m ∧
      (m = "mysql" ∨ m = "memory" ∨ m = "memory-fallback")) ∧
    (useDb = false →
      ingestHandler useDb dbOk now uk b st =
        (.okMode ("memory"), writeMemoryStore now uk b st)) ∧
    (useDb = true → dbOk = false →
      ingestHandler useDb dbOk now uk b st =
        (.okMode ("memory-fallback"), writeMemoryStore now uk b st)) := by
  refine ⟨?_, ?_, ?_⟩
  · cases useDb with
    | false => exact ⟨("memory"), by simp [ingestHandler, h], by tauto⟩
    | true =>
      cases dbOk with
      | true => exact ⟨("mysql"), by simp [ingestHandler, h], by tauto⟩
      | false => exact ⟨("memory-fallback"), by simp [ingestHandler, h], by tauto⟩
  · intro hu
    subst hu
    simp [ingestHandler, h]
  · intro hu hd
    subst hu
    subst hd
    simp [ingestHandler, h]

/-- Witness for C6: a honey-only ingest with a failing durable backend is
served from memory with mode `memory-fallback`. -/
theorem ingest_has_metrics_witness :
    ingestHandler true false 0 ("u") { emptyBody with honey := some (.num 1) }
        (MemStore.mk [] []) =
      (.okMode ("memory-fallback"),
        writeMemoryStore 0 ("u") { emptyBody with honey := some (.num 1) }
          (MemStore.mk [] [])) :=
  (ingest_has_metrics true false 0 ("u") { emptyBody with honey := some (.num 1) }
    (MemStore.mk [] []) (by decide)).2.2 rfl rfl

/- ------------------------------------------------------------------ -/

/- Theorems: stale-timestamp ingest (claim C10). -/

theorem retainRecent_false_of_old (now t : Int) (h : t < now - 2592000) :
    retainRecent now t = false := by
  simp only [retainRecent, decide_eq_false_iff_not, not_le]
  omega

theorem writeMemoryBucket_honey_eq (now : Int) (b : IngestBody) (bk : Bucket) :
    (writeMemoryBucket now b bk).honey
      = (bk.honey ++ (match b.honey with
          | some (.num q) => [Pt.mk (ingestT now b) q]
          | _ => [])).filter fun p => retainRecent now p.t := rfl

theorem writeMemoryBucket_pollen_eq (now : Int) (b : IngestBody) (bk : Bucket) :
    (writeMemoryBucket now b bk).pollen
      = (bk.pollen ++ (match b.pollen with
          | some (.num q) => [Pt.mk (ingestT now b) q]
          | _ => [])).filter fun p => retainRecent now p.t := rfl

theorem writeMemoryBucket_backpack_eq' (now : Int) (b : IngestBody) (bk : Bucket) :
    (writeMemoryBucket now b bk).backpack
      = (bk.backpack ++ (match b.backpack with
          | some (.num q) =>
            [backpackEntryOf (ingestT now b) q (effectiveCapacity b bk)]
          | _ => [])).filter fun p => retainRecent now p.t := by
  cases hb : b.backpack with
  | none => simp [writeMemoryBucket, hb, effectiveCapacity]
  | some j =>
    cases j with
    | num q => simp [writeMemoryBucket, hb, effectiveCapacity]
    | nonfinite => simp [writeMemoryBucket, hb, effectiveCapacity]

theorem writeMemoryBucket_nectar_eq (now : Int) (b : IngestBody) (bk : Bucket)
    (τ : NectarType) :
    (writeMemoryBucket now b bk).nectar τ
      = (bk.nectar τ ++ (match b.nectar with
          | some f =>
            if hasNectar b then
              match f τ with
              | some (.num q) => [Pt.mk (ingestT now b) q]
              | _ => []
            else []
          | none => [])).filter fun p => retainRecent now p.t := rfl

theorem writeMemoryBucket_scalars (now : Int) (b : IngestBody) (bk : Bucket) :
    (writeMemoryBucket now b bk).lastSeen = ingestT now b ∧
    (writeMemoryBucket now b bk).currentHoney
      = (match b.currentHoney with | some j => j | none => bk.currentHoney) ∧
    (writeMemoryBucket now b bk).username
      = (match sanitizeUsername b.username with
          | some n => some n
          | none => bk.username) := ⟨rfl, rfl, rfl⟩

theorem writeMemoryStore_samples (now : Int) (uk : String) (b : IngestBody)
    (st : MemStore) :
    (writeMemoryStore now uk b st).samples
      = setAssoc st.samples uk
          (writeMemoryBucket now b ((findAssoc st.samples uk).getD emptyBucket)) := by
  cases h : normalizePlayerId b.playerId with
  | none => simp [writeMemoryStore, h]
  | some pid =>
    by_cases hp : 0 < pid
    · simp [writeMemoryStore, h, hp]
    · simp [writeMemoryStore, h, hp]

theorem mem_push_app_t (t0 : Int) (o : Option JsNum) :
    ∀ x, x ∈ pushApp t0 o → x.t = t0 := by
  intro x hx
  unfold pushApp at hx
  split at hx
  · simp only [List.mem_singleton] at hx
    rw [hx]
  · simp at hx

theorem mem_push_bp_t (t0 : Int) (cap : ℚ) (o : Option JsNum) :
    ∀ x, x ∈ pushBpApp t0 cap o → x.t = t0 := by
  intro x hx
  unfold pushBpApp at hx
  split at hx
  · simp only [List.mem_singleton] at hx
    rw [hx, backpackEntryOf_t]
  · simp at hx

theorem mem_push_nectar_t (t0 : Int) (b : IngestBody) (τ : NectarType) :
    ∀ x, x ∈ pushNectarApp t0 b τ → x.t = t0 := by
  intro x hx
  unfold pushNectarApp at hx
  split at hx
  · split at hx
    · split at hx
      · simp only [List.mem_singleton] at hx
        rw [hx]
      · simp at hx
    · simp at hx
  · simp at hx

theorem writeMemoryBucket_honey_eq2 (now : Int) (b : IngestBody) (bk : Bucket) :
    (writeMemoryBucket now b bk).honey
      = (bk.honey ++ pushApp (ingestT now b) b.honey).filter
          fun p => retainRecent now p.t := by
  cases hb : b.honey with
  | none => simp [writeMemoryBucket, pushApp, hb]
  | some j =>
    cases j with
    | num q => simp [writeMemoryBucket, pushApp, hb]
    | nonfinite => simp [writeMemoryBucket, pushApp, hb]

theorem writeMemoryBucket_pollen_eq2 (now : Int) (b : IngestBody) (bk : Bucket) :
    (writeMemoryBucket now b bk).pollen
      = (bk.pollen ++ pushApp (ingestT now b) b.pollen).filter
          fun p => retainRecent now p.t := by
  cases hb : b.pollen with
  | none => simp [writeMemoryBucket, pushApp, hb]
  | some j =>
    cases j with
    | num q => simp [writeMemoryBucket, pushApp, hb]
    | nonfinite => simp [writeMemoryBucket, pushApp, hb]

theorem writeMemoryBucket_backpack_eq2 (now : Int) (b : IngestBody) (bk : Bucket) :
    (writeMemoryBucket now b bk).backpack
      = (bk.backpack ++ pushBpApp (ingestT now b) (effectiveCapacity b bk) b.backpack).filter
          fun p => retainRecent now p.t := by
  cases hb : b.backpack with
  | none => simp [writeMemoryBucket, pushBpApp, hb, effectiveCapacity]
  | some j =>
    cases j with
    | num q => simp [writeMemoryBucket, pushBpApp, hb, effectiveCapacity]
    | nonfinite => simp [writeMemoryBucket, pushBpApp, hb, effectiveCapacity]

theorem writeMemoryBucket_nectar_eq2 (now : Int) (b : IngestBody) (bk : Bucket)
    (τ : NectarType) :
    (writeMemoryBucket now b bk).nectar τ
      = (bk.nectar τ ++ pushNectarApp (ingestT now b) b τ).filter
          fun p => retainRecent now p.t := by
  cases hn : b.nectar with
  | none => simp [writeMemoryBucket, pushNectarApp, hn]
  | some f =>
    by_cases hh : hasNectar b = true
    · cases hft : f τ with
      | none => simp [writeMemoryBucket, pushNectarApp, hn, hh, hft]
      | some j =>
        cases j with
        | num q => simp [writeMemoryBucket, pushNectarApp, hn, hh, hft]
        | nonfinite => simp [writeMemoryBucket, pushNectarApp, hn, hh, hft]
    · simp [writeMemoryBucket, pushNectarApp, hn, hh]

/-- C10 counterexample: in memory mode, an ingest with a 30-day-old event
timestamp answers `ok` but does not leave the series unchanged when the
bucket holds a stale point: the same in-call prune drops the pre-existing
sample at t = 1 (read at server time 2592002, cutoff 2), so the honey
series goes from `[(1, 7)]` to `[]`. -/
theorem ingest_old_timestamp_counterexample :
    (ingestHandler false true 2592002 ("u")
        { emptyBody with honey := some (.num 5), atTime := some 0 }
        (MemStore.mk [(("u"), { emptyBucket with honey := [Pt.mk 1 7] })] [])).1
      = .okMode ("memory") ∧
    (findAssoc (ingestHandler false true 2592002 ("u")
        { emptyBody with honey := some (.num 5), atTime := some 0 }
        (MemStore.mk [(("u"), { emptyBucket with honey := [Pt.mk 1 7] })] [])).2.samples
        ("u")).map Bucket.honey = some [] := by
  constructor
  · decide
  · decide

/-- C10 (amended): in memory mode an ingest whose event timestamp is more
than 30 days old still answers `ok` with mode `memory`, and afterwards
every per-metric series equals its 30-day-pruned previous value — in
particular the pushed sample never appears, and the series are literally
unchanged when no stored point was older than the window — while
`lastSeen`, `currentHoney` (when numeric) and the sanitized username
(when present) are still updated. -/
theorem ingest_old_timestamp_amended (dbOk : Bool) (now : Int) (uk : String)
    (b : IngestBody) (st : MemStore)
    (hv : noMetricsB b = false)
    (hold : ingestT now b < now - 2592000) :
    (ingestHandler false dbOk now uk b st).1 = .okMode ("memory") ∧
    findAssoc (ingestHandler false dbOk now uk b st).2.samples uk
      = some (writeMemoryBucket now b (bucketOf st uk)) ∧
    (writeMemoryBucket now b (bucketOf st uk)).honey
      = (bucketOf st uk).honey.filter (fun p => retainRecent now p.t) ∧
    (writeMemoryBucket now b (bucketOf st uk)).pollen
      = (bucketOf st uk).pollen.filter (fun p => retainRecent now p.t) ∧
    (writeMemoryBucket now b (bucketOf st uk)).backpack
      = (bucketOf st uk).backpack.filter (fun p => retainRecent now p.t) ∧
    (∀ τ, (writeMemoryBucket now b (bucketOf st uk)).nectar τ
      = ((bucketOf st uk).nectar τ).filter (fun p => retainRecent now p.t)) ∧
    (writeMemoryBucket now b (bucketOf st uk)).lastSeen = ingestT now b ∧
    (writeMemoryBucket now b (bucketOf st uk)).currentHoney
      = (match b.currentHoney with
          | some j => j
          | none => (bucketOf st uk).currentHoney) ∧
    (writeMemoryBucket now b (bucketOf st uk)).username
      = (match sanitizeUsername b.username with
          | some n => some n
          | none => (bucketOf st uk).username) ∧
    ((∀ p ∈ (bucketOf st uk).honey, retainRecent now p.t = true) →
      (writeMemoryBucket now b (bucketOf st uk)).honey = (bucketOf st uk).honey) := by
  have hresp : ingestHandler false dbOk now uk b st
      = (.okMode ("memory"), writeMemoryStore now uk b st) := by
    simp [ingestHandler, hv]
  have hhoney : (writeMemoryBucket now b (bucketOf st uk)).honey
      = (bucketOf st uk).honey.filter (fun p => retainRecent now p.t) := by
    rw [writeMemoryBucket_honey_eq2]
    exact filter_append_drop _ _ _ (fun x hx => by
      show retainRecent now x.t = false
      rw [mem_push_app_t (ingestT now b) b.honey x hx]
      exact retainRecent_false_of_old now _ hold)
  refine ⟨by rw [hresp], ?_, hhoney, ?_, ?_, ?_,
    (writeMemoryBucket_scalars now b (bucketOf st uk)).1,
    (writeMemoryBucket_scalars now b (bucketOf st uk)).2.1,
    (writeMemoryBucket_scalars now b (bucketOf st uk)).2.2, ?_⟩
  · rw [hresp]
    show findAssoc (writeMemoryStore now uk b st).samples uk = _
    rw [writeMemoryStore_samples]
    exact findAssoc_setAssoc _ _ _
  · rw [writeMemoryBucket_pollen_eq2]
    exact filter_append_drop _ _ _ (fun x hx => by
      show retainRecent now x.t = false
      rw [mem_push_app_t (ingestT now b) b.pollen x hx]
      exact retainRecent_false_of_old now _ hold)
  · rw [writeMemoryBucket_backpack_eq2]
    exact filter_append_drop _ _ _ (fun x hx => by
      show retainRecent now x.t = false
      rw [mem_push_bp_t (ingestT now b) (effectiveCapacity b (bucketOf st uk)) b.backpack
        x hx]
      exact retainRecent_false_of_old now _ hold)
  · intro τ
    rw [writeMemoryBucket_nectar_eq2]
    exact filter_append_drop _ _ _ (fun x hx => by
      show retainRecent now x.t = false
      rw [mem_push_nectar_t (ingestT now b) b τ x hx]
      exact retainRecent_false_of_old now _ hold)
  · intro hall
    rw [hhoney]
    exact List.filter_eq_self.mpr hall

/-- Witness for C10 (amended): a honey ingest with event time 0 at server
time 2592002 answers `ok` with mode `memory`. -/
theorem ingest_old_timestamp_witness :
    (ingestHandler false true 2592002 ("u")
        { emptyBody with honey := some (.num 5), atTime := some 0 }
        (MemStore.mk [] [])).1 = .okMode ("memory") :=
  (ingest_old_timestamp_amended true 2592002 ("u")
    { emptyBody with honey := some (.num 5), atTime := some 0 }
    (MemStore.mk [] []) (by decide) (by decide)).1

/-- C8 counterexample: the response is re-sorted by estimated hourly rate
(`src/Index.js` line 340), not by `total_honey`: with user `a` at
total 100 and no recent samples, and user `b` at total 50 with 240 honey
in the last day, the returned order is `b` before `a` — not descending by
`total_honey`.  Also, `limit=0` is falsy, so `parseInt(limit) || 25`
yields 25 rather than a clamp to 1: with two active users and `limit=0`,
two entries are returned. -/
theorem leaderboard_counterexample :
    leaderboardHandler
      [UserRow.mk ("a") 100 1000000, UserRow.mk ("b") 50 1000000]
      [SampleRow.mk ("b") ("honey") 1000000 240]
      1000000 (some 10)
      = some [LbEntry.mk ("b") 50 240 10 1000000, LbEntry.mk ("a") 100 0 0 1000000] ∧
    ¬ List.Pairwise (fun a b : LbEntry => b.totalHoney ≤ a.totalHoney)
        [LbEntry.mk ("b") 50 240 10 1000000, LbEntry.mk ("a") 100 0 0 1000000] ∧
    (leaderboardHandler
      [UserRow.mk ("a") 100 1000000, UserRow.mk ("b") 50 1000000]
      [] 1000000 (some 0)).map List.length = some 2 := by
  have ha : dailyHoneySum [SampleRow.mk ("b") ("honey") 1000000 240] ("a") 1000000
      = 0 := by
    norm_num [dailyHoneySum, List.filter_cons, List.filter_nil,
      show (("b" : String) = ("a" : String)) = False by simp]
  have hb : dailyHoneySum [SampleRow.mk ("b") ("honey") 1000000 240] ("b") 1000000
      = 240 := by
    norm_num [dailyHoneySum, List.filter_cons, List.filter_nil]
  have hz : ∀ k : String, dailyHoneySum [] k 1000000 = 0 := fun _ => rfl
  refine ⟨?_, ?_, ?_⟩
  · norm_num [leaderboardHandler, effLimit, ha, hb, List.insertionSort,
      List.orderedInsert]
  · intro hp
    have h1 := (List.pairwise_cons.mp hp).1 (LbEntry.mk ("a") 100 0 0 1000000) (by simp)
    norm_num at h1
  · norm_num [leaderboardHandler, effLimit, hz, List.insertionSort,
      List.orderedInsert]

/-- C8 (amended): every returned entry belongs to a user whose
`last_activity` is within the past 7 days; the number of entries is at
most the effective limit `min(parseInt(limit) || 25, 100)` (absent, `0`
or unparseable limits default to 25; there is no lower clamp to 1, and a
negative limit is a query error answered with a 500); the response is
ordered descending by the estimated hourly rate, which is the last-24h
honey sum divided by 24 — not by the cumulative `total_honey`. -/
theorem leaderboard_amended (users : List UserRow) (samples : List SampleRow) (now : Int)
    (p : Option Int) (l : List LbEntry)
    (h : leaderboardHandler users samples now p = some l) :
    (∀ e ∈ l, now - 86400 * 7 < e.lastActivity) ∧
    l.length ≤ (effLimit p).toNat ∧
    effLimit p ≤ 100 ∧
    List.Pairwise (fun a b => b.hourlyRate ≤ a.hourlyRate) l ∧
    (∀ e ∈ l, e.hourlyRate = e.dailyHoney / 24) := by
  simp only [leaderboardHandler] at h
  split at h
  · exact Option.noConfusion h
  · have hl := (Option.some.inj h).symm
    subst hl
    refine ⟨?_, ?_, ?_, ?_, ?_⟩
    · intro e he
      have he1 := (List.perm_insertionSort
        (fun a b : LbEntry => b.hourlyRate ≤ a.hourlyRate) _).mem_iff.mp he
      obtain ⟨u, hu, rfl⟩ := List.mem_map.mp he1
      have hu1 := List.take_subset _ _ hu
      have hu2 := (List.perm_insertionSort
        (fun a b : UserRow => b.totalHoney ≤ a.totalHoney) _).mem_iff.mp hu1
      have hu3 := (List.mem_filter.mp hu2).2
      simpa using hu3
    · exact le_trans
        (le_of_eq (List.Perm.length_eq (List.perm_insertionSort _ _)))
        (by rw [List.length_map]; exact List.length_take_le _ _)
    · exact min_le_right _ 100
    · exact List.sorted_insertionSort _ _
    · intro e he
      have he1 := (List.perm_insertionSort
        (fun a b : LbEntry => b.hourlyRate ≤ a.hourlyRate) _).mem_iff.mp he
      obtain ⟨u, hu, rfl⟩ := List.mem_map.mp he1
      rfl

/-- Witness for C8 (amended) at an empty table: the handler returns an
empty page satisfying every clause. -/
theorem leaderboard_amended_witness :
    ([] : List LbEntry).length ≤ (effLimit none).toNat ∧ effLimit none ≤ 100 :=
  ⟨(leaderboard_amended [] [] 0 none [] (by decide)).2.1,
   (leaderboard_amended [] [] 0 none [] (by decide)).2.2.1⟩
